import Mathlib

/-!
Verification development for the `tradingBot` repository.

The repository ships a Node launcher (`src/index.js`), a YAML configuration
file, a README and a project-notes XML file (`windsurfNotes.xml`) whose
`strategyConfiguration` table fixes the strategy parameters.  The Python
strategy-evaluation core itself (indicator engine, signal/position simulator,
metrics calculator, optimization harness) is not present in the repository, so
those components are modelled here directly from the specification; the
configuration table, the optimization ranges and the launcher are embedded
from the source files.

Prices and quantities are modelled as rationals (the source uses binary
floating point; all properties checked here are order/arithmetic-structural
and do not depend on rounding).
-/

namespace TradingBot

/-- A single OHLCV bar of the Series.  Modelled from the spec:
`Bar = {timestamp, open, high, low, close, volume}` (§3). -/
structure Bar where
  timestamp : ℕ
  openPrice : ℚ
  high : ℚ
  low : ℚ
  close : ℚ
  volume : ℚ
deriving Repr, DecidableEq

/-- Modelled from the spec: a Series is an ordered, immutable sequence of
Bars (§3). -/
abbrev Series := List Bar

/-- Modelled from the spec: the strategy ParameterSet (§3). -/
structure ParameterSet where
  fast_period : ℕ
  slow_period : ℕ
  sl_multiplier : ℚ
  tp_multiplier : ℚ
  use_trend_filter : Bool
  min_volume_percentile : ℚ
  min_atr_percentile : ℚ
deriving Repr, DecidableEq

/-- Modelled from the spec: one row of the IndicatorFrame, aligned
index-for-index with the Series; leading values are undefined (`none`) until
enough history exists, never defaulted to zero (§3, §4.2). -/
structure IndicatorRow where
  fast_ma : Option ℚ
  slow_ma : Option ℚ
  atr : Option ℚ
  volume_percentile : Option ℚ
  atr_percentile : Option ℚ
deriving Repr, DecidableEq

/-- A row is fully defined when every indicator value is present. -/
def IndicatorRow.defined (r : IndicatorRow) : Prop :=
  r.fast_ma.isSome ∧ r.slow_ma.isSome ∧ r.atr.isSome ∧
    r.volume_percentile.isSome ∧ r.atr_percentile.isSome

instance (r : IndicatorRow) : Decidable r.defined := by
  unfold IndicatorRow.defined; infer_instance

/-- The all-undefined row, used as the virtual predecessor of bar 0. -/
def emptyRow : IndicatorRow := ⟨none, none, none, none, none⟩

/-! ### Indicator Engine (modelled from the spec, §4.2)

All values are whole-series maps of per-index window computations; a value is
`none` exactly while the lookback window is not yet full. -/

/-- Mean of the trailing window of `w` values ending at index `i`. -/
def windowMean (w : ℕ) (xs : List ℚ) (i : ℕ) : ℚ :=
  (((xs.take (i + 1)).drop (i + 1 - w)).sum) / (w : ℚ)

/-- Modelled from the spec: simple rolling mean with window `w`; bars before
the window is full are marked undefined, not zero (§4.2). -/
def smaAt (w : ℕ) (xs : List ℚ) (i : ℕ) : Option ℚ :=
  if w ≤ i + 1 then some (windowMean w xs i) else none

/-- Modelled from the spec: True Range
`max(high-low, |high-prev_close|, |low-prev_close|)` (§4.2); for the first
bar, where no previous close exists, the conventional `high-low` is used. -/
def trAt (s : Series) (i : ℕ) : ℚ :=
  match s[i]? with
  | none => 0
  | some b =>
    match i with
    | 0 => b.high - b.low
    | j + 1 =>
      match s[j]? with
      | none => b.high - b.low
      | some pb => max (b.high - b.low) (max |b.high - pb.close| |b.low - pb.close|)

/-- Percentile rank (0-100) of `v` within the sample `vs`. -/
def pctRank (vs : List ℚ) (v : ℚ) : ℚ :=
  100 * ((vs.filter (fun x => x ≤ v)).length : ℚ) / (vs.length : ℚ)

/-- Modelled from the spec: each bar's volume percentile within a trailing
rolling window (§4.2); the window is truncated at the start of the series, so
the value is defined at every bar. -/
def volPctAt (w : ℕ) (s : Series) (i : ℕ) : Option ℚ :=
  match s[i]? with
  | none => none
  | some b => some (pctRank (((s.map Bar.volume).take (i + 1)).drop (i + 1 - w)) b.volume)

/-- The list of per-index ATR values (rolling mean of True Range). -/
def atrList (aw : ℕ) (s : Series) : List (Option ℚ) :=
  (List.range s.length).map (fun i => smaAt aw ((List.range s.length).map (trAt s)) i)

/-- Modelled from the spec: each bar's ATR percentile within a trailing
rolling window of the defined ATR values (§4.2); defined exactly when the
bar's own ATR is defined. -/
def atrPctAt (aw : ℕ) (s : Series) (i : ℕ) : Option ℚ :=
  match (atrList aw s)[i]? with
  | none => none
  | some none => none
  | some (some v) => some (pctRank ((((atrList aw s).take (i + 1)).drop (i + 1 - aw)).reduceOption) v)

/-- Modelled from the spec: the Indicator Engine's
`compute(series, params) -> IndicatorFrame` (§4.2), with ATR window `aw`
(default 14 in the spec).  Produces one row per bar, aligned by index. -/
def compute (s : Series) (p : ParameterSet) (aw : ℕ) : List IndicatorRow :=
  (List.range s.length).map (fun i =>
    { fast_ma := smaAt p.fast_period (s.map Bar.close) i
      slow_ma := smaAt p.slow_period (s.map Bar.close) i
      atr := smaAt aw ((List.range s.length).map (trAt s)) i
      volume_percentile := volPctAt aw s i
      atr_percentile := atrPctAt aw s i })

/-! ### Signal & Position Simulator (modelled from the spec, §4.3)

A per-bar state machine over `Flat`/`Long`, started flat, producing an
append-only trade ledger.  Conventions the spec leaves open, fixed here and
documented: entry/reversal-exit price is the current bar's close; the
longer-horizon trend condition is `close > slow_ma`; the trailing stop level
is `trailing_high_water` minus the entry stop distance, so it ratchets up
with new highs and never down. -/

/-- Modelled from the spec: trade sides; only long positions are in scope
(§4.3). -/
inductive Side
  | long
deriving Repr, DecidableEq

/-- Modelled from the spec: the reason a position was closed (§3, §4.3). -/
inductive ExitReason
  | stop_loss
  | take_profit
  | trailing_stop
  | signal_reversal
deriving Repr, DecidableEq

/-- Modelled from the spec: transient simulation state of one open trade
(§3). -/
structure Position where
  entry_price : ℚ
  entry_time : ℕ
  stop_loss_price : ℚ
  take_profit_price : ℚ
  trailing_high_water : ℚ
deriving Repr, DecidableEq

/-- Modelled from the spec: a closed Trade record, immutable once appended to
the ledger (§3). -/
structure Trade where
  entry_time : ℕ
  exit_time : ℕ
  side : Side
  entry_price : ℚ
  exit_price : ℚ
  pnl : ℚ
  exit_reason : ExitReason
deriving Repr, DecidableEq

/-- Modelled from the spec: simulator states `Flat` and `Long` (§4.3). -/
inductive SimState
  | flat
  | long (pos : Position)
deriving Repr, DecidableEq

/-- Number of open positions held in a simulator state. -/
def openPositions : SimState → ℕ
  | .flat => 0
  | .long _ => 1

/-- Modelled from the spec: `fast_ma` crosses above `slow_ma` on the current
bar (§4.3); undefined indicator values never generate a signal. -/
def crossUp (prev cur : IndicatorRow) : Bool :=
  match prev.fast_ma, prev.slow_ma, cur.fast_ma, cur.slow_ma with
  | some pf, some ps, some cf, some cs => decide (pf ≤ ps) && decide (cs < cf)
  | _, _, _, _ => false

/-- Modelled from the spec: the crossover-reversal signal, `fast_ma` crossing
below `slow_ma` (§4.3); undefined values never generate a signal. -/
def crossDown (prev cur : IndicatorRow) : Bool :=
  match prev.fast_ma, prev.slow_ma, cur.fast_ma, cur.slow_ma with
  | some pf, some ps, some cf, some cs => decide (ps ≤ pf) && decide (cf < cs)
  | _, _, _, _ => false

/-- Modelled from the spec: trend/volume/volatility entry filters (§4.3);
undefined values never pass a filter. -/
def filtersOk (p : ParameterSet) (b : Bar) (r : IndicatorRow) : Bool :=
  match r.volume_percentile, r.atr_percentile, r.slow_ma with
  | some vp, some ap, some sm =>
      decide (p.min_volume_percentile ≤ vp) && decide (p.min_atr_percentile ≤ ap) &&
        (!p.use_trend_filter || decide (sm < b.close))
  | _, _, _ => false

/-- Modelled from the spec: the `Flat → Long` entry trigger (§4.3). -/
def entrySignal (p : ParameterSet) (b : Bar) (prev cur : IndicatorRow) : Bool :=
  crossUp prev cur && filtersOk p b cur

/-- Modelled from the spec: on entry, record the entry price and set the
ATR-based stop-loss and take-profit levels (§4.3). -/
def tryEnter (p : ParameterSet) (b : Bar) (prev cur : IndicatorRow) : Option Position :=
  if entrySignal p b prev cur then
    match cur.atr with
    | some a => some
        { entry_price := b.close
          entry_time := b.timestamp
          stop_loss_price := b.close - p.sl_multiplier * a
          take_profit_price := b.close + p.tp_multiplier * a
          trailing_high_water := b.close }
    | none => none
  else none

/-- The trailing-stop level: the high-water mark minus the entry stop
distance; ratchets up with `trailing_high_water`, never down. -/
def trailLevel (pos : Position) : ℚ :=
  pos.trailing_high_water - (pos.entry_price - pos.stop_loss_price)

/-- Modelled from the spec: the `Long → Flat` exit conditions, checked in the
fixed priority order stop-loss, take-profit, trailing-stop (if enabled),
crossover reversal; breached-level exits realize the level's price, the
reversal exit realizes the close (§4.3). -/
def exitCheck (trailing : Bool) (b : Bar) (prev cur : IndicatorRow) (pos : Position) :
    Option (ℚ × ExitReason) :=
  if b.low ≤ pos.stop_loss_price then some (pos.stop_loss_price, .stop_loss)
  else if pos.take_profit_price ≤ b.high then some (pos.take_profit_price, .take_profit)
  else if trailing && decide (b.low ≤ trailLevel pos) then some (trailLevel pos, .trailing_stop)
  else if crossDown prev cur then some (b.close, .signal_reversal)
  else none

/-- Build the closed Trade record for an exit at price `px`. -/
def closeTrade (pos : Position) (b : Bar) (px : ℚ) (reason : ExitReason) : Trade :=
  { entry_time := pos.entry_time
    exit_time := b.timestamp
    side := .long
    entry_price := pos.entry_price
    exit_price := px
    pnl := px - pos.entry_price
    exit_reason := reason }

/-- Modelled from the spec: one step of the per-bar state machine (§4.3);
while `Long`, entry signals are not consulted. -/
def simStep (p : ParameterSet) (trailing : Bool) (prev cur : IndicatorRow) (b : Bar) :
    SimState → SimState × Option Trade
  | .flat =>
    match tryEnter p b prev cur with
    | some pos => (.long pos, none)
    | none => (.flat, none)
  | .long pos =>
    match exitCheck trailing b prev cur pos with
    | some (px, reason) => (.flat, some (closeTrade pos b px reason))
    | none => (.long { pos with trailing_high_water := max pos.trailing_high_water b.high }, none)

/-- Modelled from the spec: run the state machine over the bars in time
order, threading the previous indicator row and appending closed trades to
the ledger (§4.3). -/
def simRun (p : ParameterSet) (trailing : Bool) :
    IndicatorRow → SimState → List (Bar × IndicatorRow) → SimState × List Trade
  | _, st, [] => (st, [])
  | prev, st, (b, r) :: rest =>
    let step := simStep p trailing prev r b st
    let next := simRun p trailing r step.1 rest
    (next.1, step.2.toList ++ next.2)

/-- Modelled from the spec: the full simulation of a Series under one
ParameterSet, starting flat, yielding the trade ledger (§4.3). -/
def runLedger (p : ParameterSet) (trailing : Bool) (s : Series) (aw : ℕ) : List Trade :=
  (simRun p trailing emptyRow .flat (s.zip (compute s p aw))).2

/-! ### Metrics Calculator (modelled from the spec, §4.4) -/

/-- Modelled from the spec: summary statistics of one backtest (§3, §4.4).
`sharpe` and `profit_factor` use `none` as the documented "undefined"
sentinel. -/
structure Metrics where
  sharpe : Option ℚ
  total_return : ℚ
  max_drawdown : ℚ
  win_rate : ℚ
  profit_factor : Option ℚ
deriving Repr, DecidableEq

/-- Gross profit: sum of the positive trade P&Ls. -/
def grossProfit (trades : List Trade) : ℚ :=
  ((trades.filter (fun t => 0 < t.pnl)).map Trade.pnl).sum

/-- Gross loss: sum of the negative trade P&Ls (a non-positive number). -/
def grossLoss (trades : List Trade) : ℚ :=
  ((trades.filter (fun t => t.pnl < 0)).map Trade.pnl).sum

/-- Modelled from the spec: win rate `count(pnl > 0) / count(trades)`,
defined as 0 on zero trades rather than a division fault (§4.4). -/
def winRate (trades : List Trade) : ℚ :=
  if trades.length = 0 then 0
  else ((trades.filter (fun t => 0 < t.pnl)).length : ℚ) / (trades.length : ℚ)

/-- Modelled from the spec: profit factor
`sum(positive pnl) / |sum(negative pnl)|`, with the sentinel `none`
("undefined") when there are no losing trades, never a division fault
(§4.4). -/
def profitFactor (trades : List Trade) : Option ℚ :=
  if grossLoss trades = 0 then none
  else some (grossProfit trades / |grossLoss trades|)

/-- Modelled from the spec: the equity curve, cumulative P&L from an initial
equity of 1 (§4.3). -/
def equityCurve (trades : List Trade) : List ℚ :=
  (trades.map Trade.pnl).scanl (· + ·) 1

/-- Running-maximum scan for the max drawdown (§4.4). -/
def mddAux : ℚ → ℚ → List ℚ → ℚ
  | _, acc, [] => acc
  | peak, acc, e :: rest =>
    mddAux (max peak e) (max acc ((max peak e - e) / max peak e)) rest

/-- Modelled from the spec: Sharpe-ratio score with the sentinel `none` when
the return variance is zero or fewer than two returns exist (§4.4).  The
spec's `mean/stddev` is irrational in general; this rational surrogate
`mean * |mean| * n / Σ(r - mean)²` is a strictly monotone function of it and
stands in for it in ranking. -/
def sharpeScore (trades : List Trade) : Option ℚ :=
  let rs := trades.map Trade.pnl
  if rs.length ≤ 1 then none
  else
    let mean := rs.sum / (rs.length : ℚ)
    let varSum := (rs.map (fun r => (r - mean) ^ 2)).sum
    if varSum = 0 then none else some (mean * |mean| * (rs.length : ℚ) / varSum)

/-- Modelled from the spec: the Metrics Calculator's pure
`evaluate(trades, equity_curve) -> Metrics` (§4.4). -/
def evaluate (trades : List Trade) : Metrics :=
  { sharpe := sharpeScore trades
    total_return := (trades.map Trade.pnl).foldl (· + ·) 1 - 1
    max_drawdown := mddAux 1 0 (equityCurve trades)
    win_rate := winRate trades
    profit_factor := profitFactor trades }

/-! ### Per-combination backtest and batch (modelled from the spec, §4.5-§4.7, §7) -/

/-- Modelled from the spec: the non-fatal per-combination error taxonomy
(§7). -/
inductive BacktestError
  | invalidParameter
  | dataError
deriving Repr, DecidableEq

/-- Modelled from the spec: a per-combination result, a successful
trades-plus-metrics row or a recorded failure (§3, §7). -/
inductive BacktestResult
  | success (params : ParameterSet) (trades : List Trade) (metrics : Metrics)
  | failure (params : ParameterSet) (err : BacktestError)
deriving Repr, DecidableEq

/-- Modelled from the spec: structural parameter validation, rejecting
`fast_period >= slow_period` with `InvalidParameterError` before simulation
(§4.3, §7). -/
def validateParams (p : ParameterSet) : Option BacktestError :=
  if p.slow_period ≤ p.fast_period then some .invalidParameter else none

/-- Modelled from the spec: minimum number of bars required by the longest
lookback window (§4.1, §4.2). -/
def minBars (p : ParameterSet) (aw : ℕ) : ℕ := max p.slow_period aw

/-- Modelled from the spec: one worker's evaluation of one ParameterSet —
validation, then Indicator Engine → Simulator → Metrics Calculator; failures
are recorded, never raised (§4.6, §7). -/
def runBacktest (s : Series) (aw : ℕ) (trailing : Bool) (p : ParameterSet) : BacktestResult :=
  match validateParams p with
  | some e => .failure p e
  | none =>
    if s.length < minBars p aw then .failure p .dataError
    else
      let tr := runLedger p trailing s aw
      .success p tr (evaluate tr)

/-- Modelled from the spec: the batch over a parameter grid; each combination
yields exactly one recorded result and a failing combination never aborts the
batch (§4.6, §7). -/
def runBatch (s : Series) (aw : ℕ) (trailing : Bool) (grid : List ParameterSet) :
    List BacktestResult :=
  grid.map (runBacktest s aw trailing)

/-! ### Results Aggregator (modelled from the spec, §4.7) -/

/-- The sentinel-carrying Sharpe value as an order key: the `none` ("zero
trade / zero variance") sentinel ranks below every defined value, making a
zero-trade combination worst-ranked as the spec requires (§4.4, §4.7). -/
def sharpeKey : Option ℚ → WithBot ℚ
  | none => ⊥
  | some v => (v : WithBot ℚ)

/-- Modelled from the spec: the ranking key of a result — Sharpe ratio,
tie-broken by total return, then by lower max drawdown, compared
lexicographically (§4.7). -/
def metricsKey (m : Metrics) : Lex (WithBot ℚ × Lex (ℚ × ℚ)) :=
  toLex (sharpeKey m.sharpe, toLex (m.total_return, -m.max_drawdown))

/-- `a` ranks strictly worse than `b` under the tie-break chain (§4.7). -/
def metricsLt (a b : Metrics) : Prop :=
  metricsKey a < metricsKey b

instance (a b : Metrics) : Decidable (metricsLt a b) := by
  unfold metricsLt metricsKey
  exact Prod.Lex.decidable _ _ _ _

/-- Modelled from the spec: the success rows of the results table (§4.7);
failed results are excluded from ranking. -/
def successRows (rs : List BacktestResult) : List (ParameterSet × Metrics) :=
  rs.filterMap (fun r => match r with
    | .success p _ m => some (p, m)
    | .failure _ _ => none)

/-- One comparison step of the ranking fold: the incumbent `acc` is replaced
only by a strictly better row (§4.7). -/
def pickAcc (acc y : ParameterSet × Metrics) : ParameterSet × Metrics :=
  if metricsLt acc.2 y.2 then y else acc

/-- Modelled from the spec: deterministic selection of the top-ranked row —
a left fold keeping the current best, replaced only by a strictly better row
(§4.7). -/
def pickBest (l : List (ParameterSet × Metrics)) : Option (ParameterSet × Metrics) :=
  match l with
  | [] => none
  | x :: xs => some (xs.foldl pickAcc x)

/-- Modelled from the spec: the Results Aggregator's best-parameter selection
over a result set (§4.7). -/
def selectBest (rs : List BacktestResult) : Option (ParameterSet × Metrics) :=
  pickBest (successRows rs)

/-! ### Configuration (embedded from the source) -/

/-- An integer parameter with a default and a min/max optimization range,
as in the `strategyConfiguration` table of `windsurfNotes.xml`. -/
structure RangedNatParam where
  default : ℕ
  min : ℕ
  max : ℕ
deriving Repr, DecidableEq

/-- A rational parameter with a default and a min/max optimization range,
as in the `strategyConfiguration` table of `windsurfNotes.xml`. -/
structure RangedRatParam where
  default : ℚ
  min : ℚ
  max : ℚ
deriving Repr, DecidableEq

/-- Shape of the structured configuration input consumed by the core:
defaults plus optimization ranges for the four ranged parameters and
defaults for the three filter parameters (spec §6). -/
structure StrategyConfiguration where
  fast_period : RangedNatParam
  slow_period : RangedNatParam
  sl_multiplier : RangedRatParam
  tp_multiplier : RangedRatParam
  use_trend_filter : Bool
  min_volume_percentile : ℚ
  min_atr_percentile : ℚ
deriving Repr, DecidableEq

/-- The `strategyConfiguration` parameter table, embedded verbatim from
`windsurfNotes.xml` (`src/unnamed/part_002`). -/
def strategyConfiguration : StrategyConfiguration :=
  { fast_period := ⟨12, 5, 20⟩
    slow_period := ⟨26, 15, 40⟩
    sl_multiplier := ⟨2, 3 / 2, 5 / 2⟩
    tp_multiplier := ⟨4, 3, 5⟩
    use_trend_filter := true
    min_volume_percentile := 25
    min_atr_percentile := 25 }

/-- All integer choices of a ranged parameter, `min` through `max`
inclusive. -/
def rangeChoices (r : RangedNatParam) : List ℕ :=
  List.range' r.min (r.max - r.min + 1)

/-- The configured `fast_period` optimization choices (5 through 20). -/
def fastChoices : List ℕ := rangeChoices strategyConfiguration.fast_period

/-- The configured `slow_period` optimization choices (15 through 40). -/
def slowChoices : List ℕ := rangeChoices strategyConfiguration.slow_period

/-- The full Cartesian grid of `(fast_period, slow_period)` combinations
under the configured optimization ranges (spec §4.5). -/
def periodGrid : List (ℕ × ℕ) := fastChoices.product slowChoices

/-- The combinations of the configured grid that violate
`fast_period < slow_period` and must be excluded by the Parameter Space
Generator (spec §4.5). -/
def invalidCombos : List (ℕ × ℕ) := periodGrid.filter (fun c => c.2 ≤ c.1)

/-! ### Node entry point (embedded from `src/index.js`) -/

/-- Outcome of launching the Python process: the promise returned by
`PythonShell.run` either resolves with the script's messages or rejects with
an error. -/
inductive LaunchOutcome
  | resolved (messages : List String)
  | rejected (err : String)
deriving Repr, DecidableEq

/-- A console line produced by the launcher: `console.log` info or
`console.error` output. -/
inductive LogLine
  | info (msg : String)
  | error (tag : String) (err : String)
deriving Repr, DecidableEq

/-- Embedded from `src/index.js`: the launch continuation
`PythonShell.run('main.py', options).then(...).catch(...)` — a resolved run
logs the fixed success message, a rejected one is caught and logged as a
startup failure.  Total on outcomes: no rejection escapes unhandled. -/
def handleLaunch : LaunchOutcome → LogLine
  | .resolved _ => .info "Trading bot started successfully"
  | .rejected e => .error "Failed to start trading bot:" e

/-! ### Concrete fixtures used by witness theorems -/

/-- A bar with equal open and close and unit volume, for concrete runs. -/
def mkBar (t : ℕ) (h l c : ℚ) : Bar :=
  { timestamp := t, openPrice := c, high := h, low := l, close := c, volume := 1 }

/-- A four-bar series with a dip and a breakout, producing one full trade. -/
def demoSeries : Series :=
  [mkBar 0 10 10 10, mkBar 1 9 9 9, mkBar 2 20 20 20, mkBar 3 40 30 30]

/-- A small valid parameter set (fast 1 < slow 2, filters off). -/
def demoParams : ParameterSet :=
  { fast_period := 1, slow_period := 2, sl_multiplier := 1, tp_multiplier := 1
    use_trend_filter := false, min_volume_percentile := 0, min_atr_percentile := 0 }

/-- A second valid parameter set, distinct from `demoParams`. -/
def demoParams2 : ParameterSet :=
  { demoParams with fast_period := 2, slow_period := 3 }

/-- An invalid parameter set drawn from the corners of the configured ranges:
fast_period 20 >= slow_period 15. -/
def demoInvalid : ParameterSet :=
  { fast_period := 20, slow_period := 15, sl_multiplier := 2, tp_multiplier := 4
    use_trend_filter := true, min_volume_percentile := 25, min_atr_percentile := 25 }

/-- A winning closed trade (pnl 11 > 0). -/
def demoWin : Trade :=
  { entry_time := 2, exit_time := 3, side := .long, entry_price := 20
    exit_price := 31, pnl := 11, exit_reason := .take_profit }

/-- An open long position: entry 20 at time 2, stop 9, target 31. -/
def demoPos : Position :=
  { entry_price := 20, entry_time := 2, stop_loss_price := 9
    take_profit_price := 31, trailing_high_water := 20 }

/-- A bar on which all four exit conditions trigger at once: low 5 breaches
the stop (9) and the trailing level (9), high 100 breaches the target (31). -/
def demoExitBar : Bar := mkBar 3 100 5 50

/-- Previous indicator row with fast 10 at or above slow 5. -/
def demoRowPrev : IndicatorRow := ⟨some 10, some 5, none, none, none⟩

/-- Current indicator row with fast 1 below slow 5: a reversal signal. -/
def demoRowCur : IndicatorRow := ⟨some 1, some 5, some 1, some 50, some 50⟩

/-- Metrics with both sentinels: the worst-ranked shape. -/
def demoMetricsBad : Metrics := ⟨none, 0, 0, 0, none⟩

/-- Metrics with a defined Sharpe value: ranks above the sentinel shape. -/
def demoMetricsGood : Metrics := ⟨some 1, 0, 0, 1, some 2⟩

/-- A mixed result set: one recorded failure and two successes. -/
def demoResults : List BacktestResult :=
  [.failure demoInvalid .invalidParameter,
   .success demoParams [] demoMetricsBad,
   .success demoParams2 [] demoMetricsGood]

/-! ### Claim theorems -/

/-- Modelled from the spec: the default ParameterSet drawn from the
configuration input (§6). -/
def defaultParams : ParameterSet :=
  { fast_period := strategyConfiguration.fast_period.default
    slow_period := strategyConfiguration.slow_period.default
    sl_multiplier := strategyConfiguration.sl_multiplier.default
    tp_multiplier := strategyConfiguration.tp_multiplier.default
    use_trend_filter := strategyConfiguration.use_trend_filter
    min_volume_percentile := strategyConfiguration.min_volume_percentile
    min_atr_percentile := strategyConfiguration.min_atr_percentile }

/-- C8: the configuration input consumed by the core provides, for each of
fast_period, slow_period, sl_multiplier and tp_multiplier, a default plus a
min/max optimization range, and a default for each of use_trend_filter,
min_volume_percentile and min_atr_percentile, mirroring the
`strategyConfiguration` parameter table of `windsurfNotes.xml`; moreover each
default lies inside its range and the defaults form a structurally valid
ParameterSet. -/
theorem config_mirrors_strategy_table :
    strategyConfiguration.fast_period = ⟨12, 5, 20⟩ ∧
    strategyConfiguration.slow_period = ⟨26, 15, 40⟩ ∧
    strategyConfiguration.sl_multiplier = ⟨2, 3 / 2, 5 / 2⟩ ∧
    strategyConfiguration.tp_multiplier = ⟨4, 3, 5⟩ ∧
    strategyConfiguration.use_trend_filter = true ∧
    strategyConfiguration.min_volume_percentile = 25 ∧
    strategyConfiguration.min_atr_percentile = 25 ∧
    (strategyConfiguration.fast_period.min ≤ strategyConfiguration.fast_period.default ∧
      strategyConfiguration.fast_period.default ≤ strategyConfiguration.fast_period.max) ∧
    (strategyConfiguration.slow_period.min ≤ strategyConfiguration.slow_period.default ∧
      strategyConfiguration.slow_period.default ≤ strategyConfiguration.slow_period.max) ∧
    (strategyConfiguration.sl_multiplier.min ≤ strategyConfiguration.sl_multiplier.default ∧
      strategyConfiguration.sl_multiplier.default ≤ strategyConfiguration.sl_multiplier.max) ∧
    (strategyConfiguration.tp_multiplier.min ≤ strategyConfiguration.tp_multiplier.default ∧
      strategyConfiguration.tp_multiplier.default ≤ strategyConfiguration.tp_multiplier.max) ∧
    validateParams defaultParams = none := by
  refine ⟨rfl, rfl, rfl, rfl, rfl, rfl, rfl, ?_, ?_, ?_, ?_, ?_⟩ <;>
    norm_num [strategyConfiguration, validateParams, defaultParams]

/-- C9: every outcome of launching the Python process is handled by the Node
entry point: a resolved `PythonShell.run` logs the fixed success message and
a rejected one is caught and logged as a startup failure, so no rejection
propagates unhandled out of `index.js`. -/
theorem launch_outcomes_handled (o : LaunchOutcome) :
    (∀ msgs, o = .resolved msgs → handleLaunch o = .info "Trading bot started successfully") ∧
    (∀ e, o = .rejected e → handleLaunch o = .error "Failed to start trading bot:" e) := by
  constructor
  · rintro msgs rfl; rfl
  · rintro e rfl; rfl

/-- Witness for C9 at two concrete outcomes. -/
theorem launch_outcomes_handled_witness :
    handleLaunch (.resolved ["started"]) = .info "Trading bot started successfully" ∧
    handleLaunch (.rejected "spawn failure") =
      .error "Failed to start trading bot:" "spawn failure" :=
  ⟨(launch_outcomes_handled _).1 ["started"] rfl,
   (launch_outcomes_handled _).2 "spawn failure" rfl⟩

/-- C10: under the configured optimization ranges (fast_period 5-20,
slow_period 15-40) the full Cartesian grid contains a combination with
fast_period >= slow_period — for example (20, 15) — so the Parameter Space
Generator's exclusion of invalid combinations is exercised by the default
configuration rather than vacuous. -/
theorem grid_exercises_invalid_combos :
    (20, 15) ∈ periodGrid ∧ 15 ≤ 20 ∧ (20, 15) ∈ invalidCombos ∧ invalidCombos ≠ [] := by
  decide

/-- C4: the Metrics Calculator's win rate and profit factor are total and
never raise a division fault: on a zero-trade ledger the win rate is 0, and
on a ledger with no losing trades the profit factor is the documented `none`
sentinel rather than an error. -/
theorem metrics_sentinels (trades : List Trade) (hnl : ∀ t ∈ trades, 0 ≤ t.pnl) :
    winRate [] = 0 ∧ (evaluate []).win_rate = 0 ∧
    profitFactor trades = none ∧ (evaluate trades).profit_factor = none := by
  have hfil : trades.filter (fun t => t.pnl < 0) = [] := by
    rw [List.filter_eq_nil_iff]
    intro t ht
    simpa using not_lt.mpr (hnl t ht)
  have hgl : grossLoss trades = 0 := by simp [grossLoss, hfil]
  refine ⟨by simp [winRate], by simp [evaluate, winRate], ?_, ?_⟩ <;>
    simp [profitFactor, hgl, evaluate]

/-- Witness for C4 on a concrete all-winning ledger. -/
theorem metrics_sentinels_witness :
    winRate [] = 0 ∧ (evaluate []).win_rate = 0 ∧
    profitFactor [demoWin] = none ∧ (evaluate [demoWin]).profit_factor = none :=
  metrics_sentinels [demoWin] (by intro t ht; simp [demoWin] at ht; subst ht; norm_num [demoWin])

/-- C3: when more than one exit condition of an open Long position triggers
on the same bar, the simulator resolves the exit in the fixed priority order
stop-loss, take-profit, trailing-stop, crossover reversal, and a
breached-level exit realizes the breached level's price, not the bar's
close. -/
theorem exit_priority_order (p : ParameterSet) (trailing : Bool)
    (prev cur : IndicatorRow) (b : Bar) (pos : Position) :
    (b.low ≤ pos.stop_loss_price →
      simStep p trailing prev cur b (.long pos) =
        (.flat, some (closeTrade pos b pos.stop_loss_price .stop_loss))) ∧
    (¬ b.low ≤ pos.stop_loss_price → pos.take_profit_price ≤ b.high →
      simStep p trailing prev cur b (.long pos) =
        (.flat, some (closeTrade pos b pos.take_profit_price .take_profit))) ∧
    (¬ b.low ≤ pos.stop_loss_price → ¬ pos.take_profit_price ≤ b.high →
      trailing = true → b.low ≤ trailLevel pos →
      simStep p trailing prev cur b (.long pos) =
        (.flat, some (closeTrade pos b (trailLevel pos) .trailing_stop))) ∧
    (¬ b.low ≤ pos.stop_loss_price → ¬ pos.take_profit_price ≤ b.high →
      ¬ (trailing = true ∧ b.low ≤ trailLevel pos) → crossDown prev cur = true →
      simStep p trailing prev cur b (.long pos) =
        (.flat, some (closeTrade pos b b.close .signal_reversal))) := by
  refine ⟨fun h1 => ?_, fun h1 h2 => ?_, fun h1 h2 h3 h4 => ?_, fun h1 h2 h3 h4 => ?_⟩
  · simp [simStep, exitCheck, h1]
  · simp [simStep, exitCheck, h1, h2]
  · simp [simStep, exitCheck, h1, h2, h3, h4]
  · have h3' : (trailing && decide (b.low ≤ trailLevel pos)) = false := by
      cases trailing with
      | false => simp
      | true =>
        simp only [Bool.true_and, decide_eq_false_iff_not]
        exact fun hc => h3 ⟨rfl, hc⟩
    simp [simStep, exitCheck, h1, h2, h3', h4]

/-- Witness for C3: a bar on which all four exit conditions trigger at once
resolves to a stop-loss exit at the stop price. -/
theorem exit_priority_order_witness :
    simStep demoParams true demoRowPrev demoRowCur demoExitBar (.long demoPos) =
      (.flat, some (closeTrade demoPos demoExitBar demoPos.stop_loss_price .stop_loss)) ∧
    demoExitBar.low ≤ demoPos.stop_loss_price ∧
    demoPos.take_profit_price ≤ demoExitBar.high ∧
    demoExitBar.low ≤ trailLevel demoPos ∧
    crossDown demoRowPrev demoRowCur = true := by
  refine ⟨(exit_priority_order demoParams true demoRowPrev demoRowCur demoExitBar demoPos).1
    (by norm_num [demoExitBar, demoPos, mkBar]), ?_, ?_, ?_, ?_⟩
  · norm_num [demoExitBar, demoPos, mkBar]
  · norm_num [demoExitBar, demoPos, mkBar]
  · norm_num [demoExitBar, demoPos, mkBar, trailLevel]
  · norm_num [demoRowPrev, demoRowCur, crossDown]

/-- A successful backtest row always comes from a structurally valid
ParameterSet. -/
lemma runBacktest_success_params (s : Series) (aw : ℕ) (trailing : Bool)
    {p q : ParameterSet} {tr : List Trade} {m : Metrics}
    (h : runBacktest s aw trailing p = .success q tr m) :
    q = p ∧ p.fast_period < p.slow_period := by
  unfold runBacktest validateParams at h
  by_cases hv : p.slow_period ≤ p.fast_period
  · rw [if_pos hv] at h
    cases h
  · rw [if_neg hv] at h
    by_cases hl : s.length < minBars p aw
    · rw [if_pos hl] at h
      cases h
    · rw [if_neg hl] at h
      cases h
      exact ⟨rfl, lt_of_not_le hv⟩

/-- C5: a ParameterSet with fast_period >= slow_period is rejected with
InvalidParameterError before the simulator runs, is recorded as a failed
result without aborting the batch (the batch still yields one row per
combination), and never appears as a successful row. -/
theorem invalid_params_rejected (s : Series) (aw : ℕ) (trailing : Bool)
    (p : ParameterSet) (grid : List ParameterSet)
    (hp : p.slow_period ≤ p.fast_period) :
    runBacktest s aw trailing p = .failure p .invalidParameter ∧
    (p ∈ grid → BacktestResult.failure p .invalidParameter ∈ runBatch s aw trailing grid) ∧
    (runBatch s aw trailing grid).length = grid.length ∧
    (∀ q tr m, BacktestResult.success q tr m ∈ runBatch s aw trailing grid →
      q.fast_period < q.slow_period) := by
  have h1 : runBacktest s aw trailing p = .failure p .invalidParameter := by
    unfold runBacktest validateParams
    rw [if_pos hp]
  refine ⟨h1, fun hmem => ?_, by simp [runBatch], fun q tr m hmem => ?_⟩
  · rw [← h1]
    exact List.mem_map_of_mem _ hmem
  · rw [runBatch, List.mem_map] at hmem
    obtain ⟨q', _, heq⟩ := hmem
    obtain ⟨hq, hlt⟩ := runBacktest_success_params s aw trailing heq
    exact hq ▸ hlt

/-- Witness for C5 at the concrete invalid combination (20, 15). -/
theorem invalid_params_rejected_witness :
    runBacktest demoSeries 1 false demoInvalid = .failure demoInvalid .invalidParameter ∧
    BacktestResult.failure demoInvalid .invalidParameter ∈
      runBatch demoSeries 1 false [demoParams, demoInvalid] ∧
    (runBatch demoSeries 1 false [demoParams, demoInvalid]).length = 2 := by
  have h := invalid_params_rejected demoSeries 1 false demoInvalid [demoParams, demoInvalid]
    (by norm_num [demoInvalid])
  exact ⟨h.1, h.2.1 (by simp), h.2.2.1⟩

/-- The ranking comparison is irreflexive. -/
lemma metricsLt_irrefl (a : Metrics) : ¬ metricsLt a a :=
  lt_irrefl (metricsKey a)

/-- The ranking comparison is transitive. -/
lemma metricsLt_trans {a b c : Metrics} (h1 : metricsLt a b) (h2 : metricsLt b c) :
    metricsLt a c :=
  lt_trans (α := Lex (WithBot ℚ × Lex (ℚ × ℚ))) h1 h2

/-- The ranking comparison is a strict total comparison: `a` below `b` and
`c` not below `b` force `a` below `c`. -/
lemma metricsLt_of_lt_of_not_lt {a b c : Metrics}
    (h1 : metricsLt a b) (h2 : ¬ metricsLt c b) : metricsLt a c :=
  lt_of_lt_of_le (α := Lex (WithBot ℚ × Lex (ℚ × ℚ))) h1 (not_lt.mp h2)

/-- The ranking fold returns an element of the candidates that no candidate
strictly outranks. -/
lemma foldl_pickAcc_sound (x : ParameterSet × Metrics) (xs : List (ParameterSet × Metrics)) :
    (xs.foldl pickAcc x = x ∨ xs.foldl pickAcc x ∈ xs) ∧
    ¬ metricsLt (xs.foldl pickAcc x).2 x.2 ∧
    ∀ y ∈ xs, ¬ metricsLt (xs.foldl pickAcc x).2 y.2 := by
  induction xs generalizing x with
  | nil => exact ⟨Or.inl rfl, metricsLt_irrefl x.2, by simp⟩
  | cons z rest ih =>
    rw [List.foldl_cons]
    by_cases hxz : metricsLt x.2 z.2
    · have hpz : pickAcc x z = z := if_pos hxz
      rw [hpz]
      obtain ⟨hmem, hx', hall⟩ := ih z
      refine ⟨?_, ?_, ?_⟩
      · rcases hmem with h | h
        · exact Or.inr (by rw [h]; exact List.mem_cons_self z rest)
        · exact Or.inr (List.mem_cons_of_mem z h)
      · intro h
        exact hx' (metricsLt_trans h hxz)
      · intro y hy
        rcases List.mem_cons.mp hy with rfl | hy'
        · exact hx'
        · exact hall y hy'
    · have hpz : pickAcc x z = x := if_neg hxz
      rw [hpz]
      obtain ⟨hmem, hx', hall⟩ := ih x
      refine ⟨?_, hx', ?_⟩
      · rcases hmem with h | h
        · exact Or.inl h
        · exact Or.inr (List.mem_cons_of_mem z h)
      · intro y hy
        rcases List.mem_cons.mp hy with rfl | hy'
        · intro h
          exact hx' (metricsLt_of_lt_of_not_lt h hxz)
        · exact hall y hy'

/-- C7: the Results Aggregator's best-parameter selection is deterministic —
re-running the ranking step on the same result set selects the same top
combination — and the selected row comes from the successful rows and is
top-ranked under the Sharpe / total-return / lower-max-drawdown tie-break
chain: no successful row strictly outranks it. -/
theorem ranking_deterministic_and_top (rs : List BacktestResult) :
    selectBest rs = selectBest rs ∧
    (∀ b, selectBest rs = some b →
      b ∈ successRows rs ∧ ∀ y ∈ successRows rs, ¬ metricsLt b.2 y.2) := by
  refine ⟨rfl, fun b hb => ?_⟩
  unfold selectBest pickBest at hb
  cases h : successRows rs with
  | nil =>
    rw [h] at hb
    cases hb
  | cons x xs =>
    rw [h] at hb
    obtain ⟨hmem, hx, hall⟩ := foldl_pickAcc_sound x xs
    have hb2 : b = xs.foldl pickAcc x := by
      injection hb with hb
      exact hb.symm
    subst hb2
    constructor
    · rcases hmem with hm | hm
      · rw [hm]
        exact List.mem_cons_self x xs
      · exact List.mem_cons_of_mem x hm
    · intro y hy
      rcases List.mem_cons.mp hy with rfl | hy'
      · exact hx
      · exact hall y hy'

/-- Witness for C7 on a concrete mixed result set: the success row with the
defined Sharpe value is selected and no success row outranks it. -/
theorem ranking_deterministic_and_top_witness :
    (demoParams2, demoMetricsGood) ∈ successRows demoResults ∧
    ∀ y ∈ successRows demoResults, ¬ metricsLt demoMetricsGood y.2 := by
  have hlt : metricsLt demoMetricsBad demoMetricsGood := by
    rw [metricsLt, metricsKey, metricsKey, Prod.Lex.lt_iff]
    left
    simp only [demoMetricsBad, demoMetricsGood, sharpeKey]
    exact WithBot.bot_lt_coe 1
  have hsel : selectBest demoResults = some (demoParams2, demoMetricsGood) := by
    simp [selectBest, successRows, demoResults, pickBest, pickAcc, hlt]
  exact (ranking_deterministic_and_top demoResults).2 (demoParams2, demoMetricsGood) hsel

/-- The indicator row at a valid index, componentwise. -/
lemma compute_getElem (s : Series) (p : ParameterSet) (aw : ℕ) {i : ℕ} (hi : i < s.length) :
    (compute s p aw)[i]? = some
      { fast_ma := smaAt p.fast_period (s.map Bar.close) i
        slow_ma := smaAt p.slow_period (s.map Bar.close) i
        atr := smaAt aw ((List.range s.length).map (trAt s)) i
        volume_percentile := volPctAt aw s i
        atr_percentile := atrPctAt aw s i } := by
  unfold compute
  rw [List.getElem?_map, List.getElem?_range hi]
  rfl

/-- A row whose slow MA or ATR percentile is undefined never produces an
entry signal: undefined values never participate in signal logic. -/
lemma entrySignal_false_of_undefined (p : ParameterSet) (b : Bar)
    (prev r : IndicatorRow) (h : r.slow_ma = none ∨ r.atr_percentile = none) :
    entrySignal p b prev r = false := by
  obtain ⟨pf, ps, pa, pv, pp⟩ := prev
  obtain ⟨cf, cs, ca, cv, cp⟩ := r
  rcases h with h | h
  · cases h
    cases pf <;> cases ps <;> cases cf <;> simp [entrySignal, crossUp]
  · cases h
    cases cv <;> cases cs <;> simp [entrySignal, filtersOk]

/-- C1: for every Series with N bars and every valid ParameterSet
(fast_period < slow_period), the Indicator Engine's compute returns an
IndicatorFrame with exactly N rows aligned index-for-index with the Series;
the first max(slow_period, atr_window) - 1 rows are marked undefined —
and, being undefined, generate no entry signal rather than acting as zero —
and every subsequent row is fully defined. -/
theorem indicator_frame_shape (s : Series) (p : ParameterSet) (aw : ℕ)
    (hp : p.fast_period < p.slow_period) :
    (compute s p aw).length = s.length ∧
    (∀ i r, (compute s p aw)[i]? = some r → i + 1 < max p.slow_period aw →
      ¬ r.defined ∧ ∀ (b : Bar) (prev : IndicatorRow), entrySignal p b prev r = false) ∧
    (∀ i r, (compute s p aw)[i]? = some r → max p.slow_period aw ≤ i + 1 →
      r.defined) := by
  have hlen : (compute s p aw).length = s.length := by
    simp [compute]
  have hidx : ∀ i (r : IndicatorRow), (compute s p aw)[i]? = some r → i < s.length := by
    intro i r hr
    by_contra hcon
    have hge : (compute s p aw).length ≤ i := by
      rw [hlen]
      exact le_of_not_lt hcon
    rw [List.getElem?_eq_none hge] at hr
    cases hr
  refine ⟨hlen, ?_, ?_⟩
  · intro i r hr hmax
    have hi : i < s.length := hidx i r hr
    rw [compute_getElem s p aw hi] at hr
    injection hr with hr
    subst hr
    rcases lt_max_iff.mp hmax with hslow | haw
    · have hsm : smaAt p.slow_period (s.map Bar.close) i = none :=
        if_neg (by omega)
      refine ⟨?_, fun b prev => entrySignal_false_of_undefined p b prev _ (Or.inl hsm)⟩
      simp [IndicatorRow.defined, hsm]
    · have hatr : smaAt aw ((List.range s.length).map (trAt s)) i = none :=
        if_neg (by omega)
      have hal : (atrList aw s)[i]? = some none := by
        unfold atrList
        rw [List.getElem?_map, List.getElem?_range hi]
        simp [hatr]
      have hap : atrPctAt aw s i = none := by
        unfold atrPctAt
        rw [hal]
      refine ⟨?_, fun b prev => entrySignal_false_of_undefined p b prev _ (Or.inr hap)⟩
      simp [IndicatorRow.defined, hatr]
  · intro i r hr hmax
    have hi : i < s.length := hidx i r hr
    rw [compute_getElem s p aw hi] at hr
    injection hr with hr
    subst hr
    obtain ⟨hslow, haw⟩ := max_le_iff.mp hmax
    have hfast : p.fast_period ≤ i + 1 := le_trans hp.le hslow
    have hvol : (volPctAt aw s i).isSome := by
      unfold volPctAt
      rw [List.getElem?_eq_getElem hi]
      rfl
    have hap : (atrPctAt aw s i).isSome := by
      unfold atrPctAt atrList
      rw [List.getElem?_map, List.getElem?_range hi]
      simp [smaAt, haw]
    exact ⟨by simp [smaAt, hfast], by simp [smaAt, hslow], by simp [smaAt, haw], hvol, hap⟩

/-- Witness for C1 at a concrete four-bar series and valid parameters. -/
theorem indicator_frame_shape_witness :
    (compute demoSeries demoParams 1).length = demoSeries.length :=
  (indicator_frame_shape demoSeries demoParams 1 (by norm_num [demoParams])).1

/-- A position opened by `tryEnter` is stamped with the current bar's
timestamp. -/
lemma tryEnter_entry_time {p : ParameterSet} {b : Bar} {prev cur : IndicatorRow}
    {pos : Position} (h : tryEnter p b prev cur = some pos) :
    pos.entry_time = b.timestamp := by
  unfold tryEnter at h
  by_cases hs : entrySignal p b prev cur = true
  · rw [if_pos hs] at h
    cases hc : cur.atr with
    | none =>
      rw [hc] at h
      cases h
    | some a =>
      rw [hc] at h
      injection h with h
      subst h
      rfl
  · rw [if_neg hs] at h
    cases h

/-- Strictly increasing bar timestamps carry over to the zipped
bar/indicator-row input of the simulator. -/
lemma zip_compute_pairwise (s : Series) (p : ParameterSet) (aw : ℕ)
    (hmono : s.Pairwise (fun a b => a.timestamp < b.timestamp)) :
    (s.zip (compute s p aw)).Pairwise (fun x y => x.1.timestamp < y.1.timestamp) := by
  have hlen : s.length ≤ (compute s p aw).length := by
    simp [compute]
  have hmap := List.map_fst_zip s (compute s p aw) hlen
  rw [← hmap] at hmono
  exact (@List.pairwise_map (Bar × IndicatorRow) Bar Prod.fst
    (fun a b => a.timestamp < b.timestamp) (s.zip (compute s p aw))).mp hmono

/-- Chronology invariant of the simulator fold: under strictly increasing
bar timestamps, with any open position entered strictly before every
remaining bar, every emitted trade closes strictly after it opens,
consecutive trades do not overlap in time, and every trade's entry stems
either from one of the remaining bars or from the already-open position. -/
lemma simRun_chronology (p : ParameterSet) (trailing : Bool) :
    ∀ (l : List (Bar × IndicatorRow)) (prev : IndicatorRow) (st : SimState),
    l.Pairwise (fun x y => x.1.timestamp < y.1.timestamp) →
    (∀ pos, st = .long pos → ∀ x ∈ l, pos.entry_time < x.1.timestamp) →
    (∀ t ∈ (simRun p trailing prev st l).2, t.entry_time < t.exit_time) ∧
    List.Chain' (fun t u => t.exit_time < u.entry_time) (simRun p trailing prev st l).2 ∧
    (∀ t ∈ (simRun p trailing prev st l).2,
      (∃ x ∈ l, t.entry_time = x.1.timestamp) ∨
      ∃ pos, st = .long pos ∧ t.entry_time = pos.entry_time) := by
  intro l
  induction l with
  | nil =>
    intro prev st _ _
    exact ⟨by simp [simRun], by simp [simRun], by simp [simRun]⟩
  | cons hd rest ih =>
    obtain ⟨b, r⟩ := hd
    intro prev st hord hst
    obtain ⟨hb_rest, hord'⟩ := List.pairwise_cons.mp hord
    cases st with
    | flat =>
      cases he : tryEnter p b prev r with
      | none =>
        have hstep : simStep p trailing prev r b .flat = (.flat, none) := by
          unfold simStep
          rw [he]
        have hrun : (simRun p trailing prev .flat ((b, r) :: rest)).2 =
            (simRun p trailing r .flat rest).2 := by
          simp [simRun, hstep]
        obtain ⟨ih1, ih2, ih3⟩ := ih r .flat hord' (by intro pos hc; cases hc)
        rw [hrun]
        refine ⟨ih1, ih2, fun t ht => ?_⟩
        rcases ih3 t ht with ⟨x, hxm, hteq⟩ | ⟨pos, hc, _⟩
        · exact Or.inl ⟨x, List.mem_cons_of_mem _ hxm, hteq⟩
        · cases hc
      | some pos =>
        have hpt : pos.entry_time = b.timestamp := tryEnter_entry_time he
        have hstep : simStep p trailing prev r b .flat = (.long pos, none) := by
          unfold simStep
          rw [he]
        have hrun : (simRun p trailing prev .flat ((b, r) :: rest)).2 =
            (simRun p trailing r (.long pos) rest).2 := by
          simp [simRun, hstep]
        obtain ⟨ih1, ih2, ih3⟩ := ih r (.long pos) hord' (by
          intro pos' hc x hxm
          injection hc with hc
          subst hc
          rw [hpt]
          exact hb_rest x hxm)
        rw [hrun]
        refine ⟨ih1, ih2, fun t ht => ?_⟩
        rcases ih3 t ht with ⟨x, hxm, hteq⟩ | ⟨pos', hc, hteq⟩
        · exact Or.inl ⟨x, List.mem_cons_of_mem _ hxm, hteq⟩
        · injection hc with hc
          subst hc
          exact Or.inl ⟨(b, r), List.mem_cons_self _ _, by rw [hteq, hpt]⟩
    | long pos =>
      have hpos := hst pos rfl
      cases hx : exitCheck trailing b prev r pos with
      | some pr =>
        obtain ⟨px, reason⟩ := pr
        have hstep : simStep p trailing prev r b (.long pos) =
            (.flat, some (closeTrade pos b px reason)) := by
          simp [simStep, hx]
        have hrun : (simRun p trailing prev (.long pos) ((b, r) :: rest)).2 =
            closeTrade pos b px reason :: (simRun p trailing r .flat rest).2 := by
          simp [simRun, hstep]
        obtain ⟨ih1, ih2, ih3⟩ := ih r .flat hord' (by intro pos' hc; cases hc)
        rw [hrun]
        refine ⟨?_, ?_, ?_⟩
        · intro t ht
          rcases List.mem_cons.mp ht with rfl | ht'
          · simpa [closeTrade] using hpos (b, r) (List.mem_cons_self _ _)
          · exact ih1 t ht'
        · rw [List.chain'_cons']
          refine ⟨?_, ih2⟩
          intro u hu
          have hu' := List.mem_of_mem_head? hu
          rcases ih3 u hu' with ⟨x, hxm, hueq⟩ | ⟨pos', hc, _⟩
          · simp only [closeTrade]
            rw [hueq]
            exact hb_rest x hxm
          · cases hc
        · intro t ht
          rcases List.mem_cons.mp ht with rfl | ht'
          · exact Or.inr ⟨pos, rfl, rfl⟩
          · rcases ih3 t ht' with ⟨x, hxm, hteq⟩ | ⟨pos', hc, _⟩
            · exact Or.inl ⟨x, List.mem_cons_of_mem _ hxm, hteq⟩
            · cases hc
      | none =>
        have hstep : simStep p trailing prev r b (.long pos) =
            (.long { pos with trailing_high_water := max pos.trailing_high_water b.high },
              none) := by
          simp [simStep, hx]
        have hrun : (simRun p trailing prev (.long pos) ((b, r) :: rest)).2 =
            (simRun p trailing r
              (.long { pos with trailing_high_water := max pos.trailing_high_water b.high })
              rest).2 := by
          simp [simRun, hstep]
        obtain ⟨ih1, ih2, ih3⟩ := ih r
          (.long { pos with trailing_high_water := max pos.trailing_high_water b.high })
          hord' (by
            intro pos' hc x hxm
            injection hc with hc
            subst hc
            exact hpos x (List.mem_cons_of_mem _ hxm))
        rw [hrun]
        refine ⟨ih1, ih2, fun t ht => ?_⟩
        rcases ih3 t ht with ⟨x, hxm, hteq⟩ | ⟨pos', hc, hteq⟩
        · exact Or.inl ⟨x, List.mem_cons_of_mem _ hxm, hteq⟩
        · injection hc with hc
          subst hc
          exact Or.inr ⟨pos, rfl, hteq⟩

/-- The simulator's ledger is append-only: processing extra bars only
appends trades after the existing ledger, never altering its records. -/
lemma simRun_append (p : ParameterSet) (trailing : Bool) :
    ∀ (l1 l2 : List (Bar × IndicatorRow)) (prev : IndicatorRow) (st : SimState),
    ∃ tail, (simRun p trailing prev st (l1 ++ l2)).2 =
      (simRun p trailing prev st l1).2 ++ tail := by
  intro l1
  induction l1 with
  | nil =>
    intro l2 prev st
    exact ⟨(simRun p trailing prev st l2).2, by simp [simRun]⟩
  | cons hd rest ih =>
    obtain ⟨b, r⟩ := hd
    intro l2 prev st
    obtain ⟨tail, htail⟩ := ih l2 r (simStep p trailing prev r b st).1
    refine ⟨tail, ?_⟩
    simp only [List.cons_append, simRun, List.append_eq]
    rw [htail, List.append_assoc]

/-- C2: at every bar of the run the simulator state holds at most one open
Position: the run starts Flat, and while Long the step function never
consults entry signals — it either closes the open position or merely
ratchets its high-water mark — so trades never overlap: each closes no later
than the next one opens. -/
theorem at_most_one_open_position (p : ParameterSet) (trailing : Bool) (s : Series) (aw : ℕ)
    (hmono : s.Pairwise (fun a b => a.timestamp < b.timestamp)) :
    (∀ l1 l2, s.zip (compute s p aw) = l1 ++ l2 →
      openPositions ((simRun p trailing emptyRow .flat l1).1) ≤ 1) ∧
    (∀ pos prev cur b, exitCheck trailing b prev cur pos = none →
      simStep p trailing prev cur b (.long pos) =
        (.long { pos with trailing_high_water := max pos.trailing_high_water b.high }, none)) ∧
    (∀ pos prev cur b px reason, exitCheck trailing b prev cur pos = some (px, reason) →
      simStep p trailing prev cur b (.long pos) = (.flat, some (closeTrade pos b px reason))) ∧
    List.Chain' (fun t u => t.exit_time < u.entry_time) (runLedger p trailing s aw) := by
  refine ⟨?_, ?_, ?_, ?_⟩
  · intro l1 l2 _
    cases (simRun p trailing emptyRow .flat l1).1 <;> simp [openPositions]
  · intro pos prev cur b h
    simp [simStep, h]
  · intro pos prev cur b px reason h
    simp [simStep, h]
  · exact (simRun_chronology p trailing (s.zip (compute s p aw)) emptyRow .flat
      (zip_compute_pairwise s p aw hmono) (by intro pos hc; cases hc)).2.1

/-- Witness for C2 at the concrete four-bar series. -/
theorem at_most_one_open_position_witness :
    List.Chain' (fun t u => t.exit_time < u.entry_time)
      (runLedger demoParams false demoSeries 1) :=
  (at_most_one_open_position demoParams false demoSeries 1 (by decide)).2.2.2

/-- C6: every Trade appended to a simulation's ledger satisfies
exit_time > entry_time and carries an exit_reason drawn from {stop_loss,
take_profit, trailing_stop, signal_reversal}; the ledger is append-only —
extending the input only appends new trades after the existing records,
never mutating them. -/
theorem ledger_trades_wellformed (p : ParameterSet) (trailing : Bool) (s : Series) (aw : ℕ)
    (hmono : s.Pairwise (fun a b => a.timestamp < b.timestamp)) :
    (∀ t ∈ runLedger p trailing s aw,
      t.entry_time < t.exit_time ∧
      (t.exit_reason = .stop_loss ∨ t.exit_reason = .take_profit ∨
        t.exit_reason = .trailing_stop ∨ t.exit_reason = .signal_reversal)) ∧
    (∀ l1 l2 (prev : IndicatorRow) (st : SimState), ∃ tail,
      (simRun p trailing prev st (l1 ++ l2)).2 = (simRun p trailing prev st l1).2 ++ tail) := by
  obtain ⟨h1, _, _⟩ := simRun_chronology p trailing (s.zip (compute s p aw)) emptyRow .flat
    (zip_compute_pairwise s p aw hmono) (by intro pos hc; cases hc)
  refine ⟨fun t ht => ⟨h1 t ht, ?_⟩, fun l1 l2 prev st => simRun_append p trailing l1 l2 prev st⟩
  cases t.exit_reason <;> simp

/-- Witness for C6: the hypotheses hold at the concrete four-bar series, and
the append-only conclusion instantiates at concrete inputs. -/
theorem ledger_trades_wellformed_witness :
    ∃ tail, (simRun demoParams false emptyRow .flat ([] ++ [])).2 =
      (simRun demoParams false emptyRow .flat []).2 ++ tail :=
  (ledger_trades_wellformed demoParams false demoSeries 1 (by decide)).2 [] [] emptyRow .flat

end TradingBot
